import Mathlib

/-!
Verification development for the movie-ticket booking simulator
(`movie_ticket_booking_complete.c`).

The C program spawns `total_users` worker threads; each worker selects a
show index `rand() % num_shows`, waits on a global counting semaphore
(capacity 3), locks the selected show's mutex, and inside the critical
section checks `available_tickets > 0`: if so it decrements the counter by
one (a booked outcome), otherwise it leaves the state untouched (a
sold-out outcome); then it unlocks the mutex and posts the semaphore.

Because every access to a show's `available_tickets` happens inside that
show's mutex-protected critical section, a concurrent execution is
equivalent to some sequential order of the workers' atomic critical
sections.  We therefore model a run as a list of show selections (one per
worker, in the order their critical sections commit) acting on a system
state.  The semaphore discipline itself is modelled separately as a small
step transition system.
-/

namespace MovieTicket

/-- The `Show` structure of the C source: `show_id`, `available_tickets`,
`initial_tickets`.  The per-show mutex is represented by the atomicity of
`bookTicketCS` in the run semantics. -/
structure MShow where
  show_id : Int
  available_tickets : Int
  initial_tickets : Int
deriving Repr, DecidableEq

/-- The critical section of `book_ticket` (source lines 238-263): if
`available_tickets > 0` decrement it by one and report a booked outcome,
otherwise change nothing and report a sold-out outcome. -/
def bookTicketCS (s : MShow) : MShow × Bool :=
  if s.available_tickets > 0 then
    ({ s with available_tickets := s.available_tickets - 1 }, true)
  else
    (s, false)

/-- System state: the show array plus the counts of booked and sold-out
outcomes observed so far. -/
structure SysState where
  shows : List MShow
  booked : Nat
  soldout : Nat
deriving Repr, DecidableEq

/-- Initial state built by `initialize_shows` (source lines 131-150):
show `i` gets id `i+1` and `tickets_per_show` available and initial
tickets; no outcomes recorded yet. -/
def mkShow (i ticketsPerShow : Nat) : MShow :=
  { show_id := (i : Int) + 1
    available_tickets := (ticketsPerShow : Int)
    initial_tickets := (ticketsPerShow : Int) }

def initState (numShows ticketsPerShow : Nat) : SysState :=
  { shows := (List.range numShows).map (fun i => mkShow i ticketsPerShow)
    booked := 0
    soldout := 0 }

/-- One worker's atomic critical section committing on the show it
selected (`sel = rand() % num_shows` in the source, so in a real run
`sel` is always in range; an out-of-range selection is a no-op here). -/
def step (st : SysState) (sel : Nat) : SysState :=
  match st.shows.get? sel with
  | none => st
  | some sh =>
    let r := bookTicketCS sh
    { shows := st.shows.set sel r.1
      booked := if r.2 then st.booked + 1 else st.booked
      soldout := if r.2 then st.soldout else st.soldout + 1 }

/-- A whole run: the workers' critical sections commit in list order. -/
def run (st : SysState) : List Nat → SysState
  | [] => st
  | sel :: rest => run (step st sel) rest

/-- Total booked tickets as computed by `display_final_status`
(source lines 358-370): the sum over shows of
`initial_tickets - available_tickets`. -/
def totalBookedReport (st : SysState) : Int :=
  (st.shows.map (fun s => s.initial_tickets - s.available_tickets)).sum

theorem step_shows_length (st : SysState) (sel : Nat) :
    (step st sel).shows.length = st.shows.length := by
  unfold step
  cases h : st.shows.get? sel <;> simp [List.length_set]

theorem run_shows_length (sels : List Nat) (st : SysState) :
    (run st sels).shows.length = st.shows.length := by
  induction sels generalizing st with
  | nil => rfl
  | cons j rest ih => rw [run, ih, step_shows_length]

/-- Per-show evolution of a run: show `i` ends with
`available - min available (number of selections of i)` available
tickets, and its id and initial ticket count are unchanged. -/
theorem run_get? (sels : List Nat) (st : SysState) (i : Nat) (sh : MShow)
    (h : st.shows.get? i = some sh) (hnn : 0 ≤ sh.available_tickets) :
    (run st sels).shows.get? i =
      some { sh with available_tickets :=
        sh.available_tickets - min sh.available_tickets (sels.count i : Int) } := by
  induction sels generalizing st sh with
  | nil =>
    have hmin : min sh.available_tickets ((List.count i [] : Nat) : Int) = 0 := by
      simp [min_eq_right hnn]
    rw [run, hmin, h]
    cases sh
    simp
  | cons j rest ih =>
    rw [run]
    cases hj : st.shows.get? j with
    | none =>
      have hji : j ≠ i := by
        intro hrw
        rw [hrw, h] at hj
        exact Option.noConfusion hj
      have hstep : step st j = st := by unfold step; rw [hj]
      rw [hstep, List.count_cons_of_ne (fun hc => hji hc.symm), ih st sh h hnn]
    | some shj =>
      have hjlen : j < st.shows.length := List.get?_eq_some.mp hj |>.1
      by_cases hij : i = j
      · subst hij
        rw [h] at hj
        have hsh : shj = sh := (Option.some.injEq _ _).mp hj.symm
        subst hsh
        by_cases hpos : 0 < shj.available_tickets
        · have hcs : bookTicketCS shj =
              ({ shj with available_tickets := shj.available_tickets - 1 }, true) := by
            unfold bookTicketCS
            rw [if_pos hpos]
          have hstep : (step st i).shows =
              st.shows.set i { shj with available_tickets := shj.available_tickets - 1 } := by
            unfold step
            rw [h]
            simp [hcs]
          have hget : (step st i).shows.get? i =
              some { shj with available_tickets := shj.available_tickets - 1 } := by
            rw [hstep]
            exact List.get?_set_eq_of_lt _ hjlen
          have := ih (step st i) { shj with available_tickets := shj.available_tickets - 1 }
            hget (by simp; omega)
          rw [this]
          have hfield : shj.available_tickets - 1 -
              min (shj.available_tickets - 1) ((rest.count i : Nat) : Int) =
              shj.available_tickets -
              min shj.available_tickets (((i :: rest).count i : Nat) : Int) := by
            rw [List.count_cons_self]
            push_cast
            omega
          simp only [hfield]
        · have hcs : bookTicketCS shj = (shj, false) := by
            unfold bookTicketCS
            rw [if_neg hpos]
          have hstep : (step st i).shows = st.shows.set i shj := by
            unfold step
            rw [h]
            simp [hcs]
          have hget : (step st i).shows.get? i = some shj := by
            rw [hstep]
            exact List.get?_set_eq_of_lt _ hjlen
          have := ih (step st i) shj hget hnn
          rw [this]
          have hz : shj.available_tickets = 0 := by omega
          have hfield : shj.available_tickets -
              min shj.available_tickets ((rest.count i : Nat) : Int) =
              shj.available_tickets -
              min shj.available_tickets (((i :: rest).count i : Nat) : Int) := by
            rw [List.count_cons_self, hz]
            push_cast
            omega
          simp only [hfield]
      · have hget : (step st j).shows.get? i = some sh := by
          unfold step
          rw [hj]
          simp only []
          rw [List.get?_set_ne _ _ (fun hc => hij hc.symm)]
          exact h
        rw [ih (step st j) sh hget hnn, List.count_cons_of_ne hij]

/-- Setting index `j` of a list changes the mapped sum by the difference
at that index. -/
theorem sum_map_set (f : MShow → Int) (l : List MShow) (j : Nat) (shj x : MShow)
    (h : l.get? j = some shj) :
    ((l.set j x).map f).sum = (l.map f).sum - f shj + f x := by
  induction l generalizing j with
  | nil => exact Option.noConfusion h
  | cons a tl ih =>
    cases j with
    | zero =>
      have ha : a = shj := by
        rw [List.get?] at h
        exact (Option.some.injEq _ _).mp h
      subst ha
      simp [List.set]
      ring
    | succ k =>
      rw [List.get?] at h
      simp only [List.set, List.map, List.sum_cons, ih k h]
      ring

/-- Accounting invariant: along any run, the report total
(sum of `initial - available`) grows exactly with the booked counter. -/
theorem run_report_booked (sels : List Nat) (st : SysState) :
    totalBookedReport (run st sels) + (st.booked : Int) =
      totalBookedReport st + ((run st sels).booked : Int) := by
  induction sels generalizing st with
  | nil => rw [run]
  | cons j rest ih =>
    rw [run]
    cases hj : st.shows.get? j with
    | none =>
      have hstep : step st j = st := by unfold step; rw [hj]
      rw [hstep, ih]
    | some shj =>
      by_cases hpos : 0 < shj.available_tickets
      · have hstep : step st j =
            { shows := st.shows.set j { shj with available_tickets := shj.available_tickets - 1 }
              booked := st.booked + 1
              soldout := st.soldout } := by
          unfold step
          rw [hj]
          simp [bookTicketCS, hpos]
        rw [hstep]
        have hrep : totalBookedReport
            { shows := st.shows.set j { shj with available_tickets := shj.available_tickets - 1 }
              booked := st.booked + 1
              soldout := st.soldout } = totalBookedReport st + 1 := by
          unfold totalBookedReport
          rw [sum_map_set _ _ _ shj _ hj]
          simp
          ring
        have := ih { shows := st.shows.set j { shj with available_tickets := shj.available_tickets - 1 }
                     booked := st.booked + 1
                     soldout := st.soldout }
        rw [hrep] at this
        push_cast at this ⊢
        omega
      · have hstep : step st j =
            { shows := st.shows.set j shj
              booked := st.booked
              soldout := st.soldout + 1 } := by
          unfold step
          rw [hj]
          simp [bookTicketCS, hpos]
        rw [hstep]
        have hrep : totalBookedReport
            { shows := st.shows.set j shj
              booked := st.booked
              soldout := st.soldout + 1 } = totalBookedReport st := by
          unfold totalBookedReport
          rw [sum_map_set _ _ _ shj _ hj]
          ring
        have := ih { shows := st.shows.set j shj
                     booked := st.booked
                     soldout := st.soldout + 1 }
        rw [hrep] at this
        exact this

/-- The initial state's get? at `i < n` is the freshly built show. -/
theorem initState_get? (n t i : Nat) (hi : i < n) :
    (initState n t).shows.get? i = some (mkShow i t) := by
  unfold initState
  rw [List.get?_map, List.get?_range hi]
  rfl

/-- The initial state reports zero booked tickets. -/
theorem initState_report (n t : Nat) : totalBookedReport (initState n t) = 0 := by
  unfold totalBookedReport initState
  apply List.sum_eq_zero
  intro x hx
  simp only [List.map_map, List.mem_map] at hx
  obtain ⟨i, _, hfx⟩ := hx
  simp [mkShow] at hfx
  omega

/-- The initial show array has length `n`. -/
theorem initState_length (n t : Nat) : (initState n t).shows.length = n := by
  unfold initState
  simp

/-- C1: for every show, in every reachable state of the simulation
(any number of workers, any selections, any commit order), the available
ticket count satisfies `0 ≤ available_tickets ≤ initial_tickets`. -/
theorem c1_available_within_bounds (n t : Nat) (sels : List Nat) (sh : MShow)
    (hmem : sh ∈ (run (initState n t) sels).shows) :
    0 ≤ sh.available_tickets ∧ sh.available_tickets ≤ sh.initial_tickets := by
  obtain ⟨i, hi⟩ := List.mem_iff_get?.mp hmem
  have hlen : i < n := by
    have h1 := (List.get?_eq_some.mp hi).1
    rwa [run_shows_length, initState_length] at h1
  have h0 := initState_get? n t i hlen
  have hr := run_get? sels (initState n t) i (mkShow i t) h0
    (by simp [mkShow])
  rw [hr] at hi
  injection hi with hi2
  subst hi2
  have hc : (0 : Int) ≤ (sels.count i : Int) := Int.natCast_nonneg _
  simp only [mkShow]
  refine ⟨by omega, by omega⟩

/-- Concrete instantiation of the C1 invariant theorem. -/
theorem c1_available_within_bounds_witness :
    0 ≤ ({ show_id := 1, available_tickets := 0, initial_tickets := 1 } : MShow).available_tickets ∧
      ({ show_id := 1, available_tickets := 0, initial_tickets := 1 } : MShow).available_tickets ≤
        ({ show_id := 1, available_tickets := 0, initial_tickets := 1 } : MShow).initial_tickets :=
  c1_available_within_bounds 1 1 [0]
    { show_id := 1, available_tickets := 0, initial_tickets := 1 } (by decide)

/-- C2: the critical section of a reservation attempt decrements
`available_tickets` by exactly one when it is positive, performs no
mutation when it is zero, and the only way any show record can change
across a step of the run is through `bookTicketCS` applied to the
selected show. -/
theorem c2_critical_section_behaviour (sh : MShow) (st : SysState)
    (sel i : Nat) (a b : MShow) :
    (0 < sh.available_tickets →
      bookTicketCS sh =
        ({ sh with available_tickets := sh.available_tickets - 1 }, true))
    ∧ (sh.available_tickets = 0 → bookTicketCS sh = (sh, false))
    ∧ (st.shows.get? i = some a → (step st sel).shows.get? i = some b →
        b = a ∨ (i = sel ∧ b = (bookTicketCS a).1)) := by
  refine ⟨?_, ?_, ?_⟩
  · intro hpos
    unfold bookTicketCS
    rw [if_pos hpos]
  · intro hz
    unfold bookTicketCS
    rw [if_neg (by omega)]
  · intro ha hb
    by_cases hisel : i = sel
    · subst hisel
      cases hsel : st.shows.get? i with
      | none =>
        rw [hsel] at ha
        exact Option.noConfusion ha
      | some shj =>
        have hja : shj = a := by
          rw [hsel] at ha
          exact (Option.some.injEq _ _).mp ha
        subst hja
        have hilen : i < st.shows.length := (List.get?_eq_some.mp hsel).1
        have hstep : (step st i).shows = st.shows.set i (bookTicketCS shj).1 := by
          unfold step
          rw [hsel]
        rw [hstep, List.get?_set_eq_of_lt _ hilen] at hb
        injection hb with hb2
        exact Or.inr ⟨rfl, hb2.symm⟩
    · cases hsel : st.shows.get? sel with
      | none =>
        have hstep : step st sel = st := by unfold step; rw [hsel]
        rw [hstep, ha] at hb
        injection hb with hb2
        exact Or.inl hb2.symm
      | some shj =>
        have hstep : (step st sel).shows = st.shows.set sel (bookTicketCS shj).1 := by
          unfold step
          rw [hsel]
        rw [hstep, List.get?_set_ne _ _ (fun hc => hisel hc.symm), ha] at hb
        injection hb with hb2
        exact Or.inl hb2.symm

/-- Concrete instantiation of the C2 critical-section theorem. -/
theorem c2_critical_section_behaviour_witness :
    0 < (2 : Int) ∧
      bookTicketCS { show_id := 1, available_tickets := 2, initial_tickets := 2 } =
        ({ show_id := 1, available_tickets := 2 - 1, initial_tickets := 2 }, true) :=
  ⟨by norm_num,
    (c2_critical_section_behaviour
      { show_id := 1, available_tickets := 2, initial_tickets := 2 }
      (initState 1 1) 0 0 (mkShow 0 1) (mkShow 0 1)).1 (by norm_num)⟩

/-- C3: in every reachable state, the report total computed by
`display_final_status` — the sum over shows of
`initial_tickets - available_tickets` — equals the number of reservation
attempts that completed with a booked outcome. -/
theorem c3_report_equals_booked_count (n t : Nat) (sels : List Nat) :
    totalBookedReport (run (initState n t) sels) =
      ((run (initState n t) sels).booked : Int) := by
  have h := run_report_booked sels (initState n t)
  rw [initState_report] at h
  have hb : (initState n t).booked = 0 := rfl
  rw [hb] at h
  push_cast at h
  omega

/-- A list of length three is determined by its three entries. -/
theorem list_eq_of_three (l : List MShow) (a b c : MShow) (hlen : l.length = 3)
    (h0 : l.get? 0 = some a) (h1 : l.get? 1 = some b) (h2 : l.get? 2 = some c) :
    l = [a, b, c] := by
  rcases l with _ | ⟨x, _ | ⟨y, _ | ⟨z, _ | _⟩⟩⟩ <;> simp at hlen
  simp only [List.get?] at h0 h1 h2
  injection h0 with h0
  injection h1 with h1
  injection h2 with h2
  rw [h0, h1, h2]

set_option maxRecDepth 10000

/-- C4 as stated is false: with 3 shows of capacity 2 and 100 workers, a
run in which every worker's random selection lands on show 1 ends with
only 2 booked outcomes, not 6. -/
theorem c4_counterexample_all_pick_show_one :
    (run (initState 3 2) (List.replicate 100 0)).booked = 2 ∧
      (run (initState 3 2) (List.replicate 100 0)).booked ≠ 6 := by
  decide

/-- C4 amended: with 3 shows of capacity 2 and any number of workers,
every run in which each of the three shows is selected by at least two
workers ends with exactly 6 booked outcomes, regardless of commit order. -/
theorem c4_amended_total_booked_six (sels : List Nat)
    (hc0 : 2 ≤ sels.count 0) (hc1 : 2 ≤ sels.count 1) (hc2 : 2 ≤ sels.count 2) :
    (run (initState 3 2) sels).booked = 6 := by
  have h := run_report_booked sels (initState 3 2)
  rw [initState_report] at h
  have hb : (initState 3 2).booked = 0 := rfl
  rw [hb] at h
  have g0 := run_get? sels (initState 3 2) 0 (mkShow 0 2)
    (initState_get? 3 2 0 (by norm_num)) (by simp [mkShow])
  have g1 := run_get? sels (initState 3 2) 1 (mkShow 1 2)
    (initState_get? 3 2 1 (by norm_num)) (by simp [mkShow])
  have g2 := run_get? sels (initState 3 2) 2 (mkShow 2 2)
    (initState_get? 3 2 2 (by norm_num)) (by simp [mkShow])
  have hlen : (run (initState 3 2) sels).shows.length = 3 := by
    rw [run_shows_length, initState_length]
  have hl := list_eq_of_three _ _ _ _ hlen g0 g1 g2
  unfold totalBookedReport at h
  rw [hl] at h
  simp [mkShow] at h
  omega

/-- Concrete instantiation of the amended C4 theorem. -/
theorem c4_amended_total_booked_six_witness :
    2 ≤ ([0, 0, 1, 1, 2, 2] : List Nat).count 0 ∧
      (run (initState 3 2) [0, 0, 1, 1, 2, 2]).booked = 6 :=
  ⟨by decide, c4_amended_total_booked_six [0, 0, 1, 1, 2, 2]
    (by decide) (by decide) (by decide)⟩

/-- C7: with 1 show of capacity 1 and 5 workers (each of whose selections
`rand() % 1` is necessarily show index 0), every run ends with exactly 1
booked outcome, 4 sold-out outcomes, and 0 remaining tickets. -/
theorem c7_one_show_capacity_one_five_workers (sels : List Nat)
    (hlen : sels.length = 5) (hran : ∀ x ∈ sels, x < 1) :
    (run (initState 1 1) sels).booked = 1 ∧
      (run (initState 1 1) sels).soldout = 4 ∧
      (run (initState 1 1) sels).shows.get? 0 =
        some { show_id := 1, available_tickets := 0, initial_tickets := 1 } := by
  have hrepl : sels = List.replicate 5 0 := by
    rw [List.eq_replicate_iff]
    exact ⟨hlen, fun b hb => Nat.lt_one_iff.mp (hran b hb)⟩
  subst hrepl
  decide

/-- Concrete instantiation of the C7 theorem. -/
theorem c7_one_show_capacity_one_five_workers_witness :
    (run (initState 1 1) (List.replicate 5 0)).booked = 1 ∧
      (run (initState 1 1) (List.replicate 5 0)).soldout = 4 ∧
      (run (initState 1 1) (List.replicate 5 0)).shows.get? 0 =
        some { show_id := 1, available_tickets := 0, initial_tickets := 1 } :=
  c7_one_show_capacity_one_five_workers (List.replicate 5 0) (by decide)
    (by decide)

/-!
Admission limiter (the global counting semaphore, `sem_init` with value 3
at source lines 453-463, `sem_wait` at line 217, `sem_post` at line 280).
Workers move from `idle` (before `sem_wait`) to `admitted` (holding a
permit) to `done` (after `sem_post`); the transition system interleaves
these moves arbitrarily.
-/

inductive Phase where
  | idle : Phase
  | admitted : Phase
  | done : Phase
deriving Repr, DecidableEq

/-- Semaphore value plus the phase of every worker. -/
structure LimiterState where
  permits : Nat
  phases : List Phase
deriving Repr, DecidableEq

/-- The `concurrent_limit = 3` constant of `main` (source line 455). -/
def concurrentLimit : Nat := 3

/-- Before any worker starts: semaphore at 3, all workers idle. -/
def limiterInit (numWorkers : Nat) : LimiterState :=
  { permits := concurrentLimit
    phases := List.replicate numWorkers Phase.idle }

/-- One interleaving step: `sem_wait` succeeds for an idle worker only
when a permit is free and consumes it; `sem_post` by an admitted worker
returns exactly one permit, on both the booked and the sold-out path. -/
inductive LimiterStep : LimiterState → LimiterState → Prop where
  | acquire (s : LimiterState) (i : Nat)
      (h : s.phases.get? i = some Phase.idle) (hp : 0 < s.permits) :
      LimiterStep s
        { permits := s.permits - 1, phases := s.phases.set i Phase.admitted }
  | release (s : LimiterState) (i : Nat)
      (h : s.phases.get? i = some Phase.admitted) :
      LimiterStep s
        { permits := s.permits + 1, phases := s.phases.set i Phase.done }

/-- States reachable from the initial limiter state. -/
def LimiterReachable (numWorkers : Nat) (s : LimiterState) : Prop :=
  Relation.ReflTransGen LimiterStep (limiterInit numWorkers) s

/-- Number of workers currently holding an admission permit. -/
def holdingCount (s : LimiterState) : Nat := s.phases.count Phase.admitted

/-- Updating one known entry of a phase list shifts occurrence counts by
the entering and leaving values. -/
theorem count_set_phase (l : List Phase) (i : Nat) (x y a : Phase)
    (h : l.get? i = some x) :
    (l.set i y).count a + (if x = a then 1 else 0) =
      l.count a + (if y = a then 1 else 0) := by
  induction l generalizing i with
  | nil => exact Option.noConfusion h
  | cons hd tl ih =>
    cases i with
    | zero =>
      have hx : hd = x := by
        rw [List.get?] at h
        exact (Option.some.injEq _ _).mp h
      subst hx
      simp [List.set, List.count_cons]
      omega
    | succ k =>
      rw [List.get?] at h
      simp only [List.set, List.count_cons]
      have := ih k h
      omega

/-- Permit conservation along every reachable limiter state. -/
theorem limiter_invariant (n : Nat) (s : LimiterState)
    (h : LimiterReachable n s) :
    s.permits + holdingCount s = concurrentLimit := by
  induction h with
  | refl =>
    simp [limiterInit, holdingCount, List.count_replicate]
  | tail _ hbc ih =>
    cases hbc with
    | acquire i hb hp =>
      have hc := count_set_phase _ i Phase.idle Phase.admitted
        Phase.admitted hb
      simp at hc
      unfold holdingCount at ih ⊢
      simp only []
      omega
    | release i hb =>
      have hc := count_set_phase _ i Phase.admitted Phase.done
        Phase.admitted hb
      simp at hc
      unfold holdingCount at ih ⊢
      simp only []
      omega

/-- The events of one execution of `book_ticket` after show selection:
semaphore wait, mutex lock, the critical-section outcome, mutex unlock,
semaphore post — identical synchronization pattern on both branches. -/
inductive Event where
  | semWait : Event
  | mutexLock : Event
  | bookSuccess : Event
  | soldOut : Event
  | mutexUnlock : Event
  | semPost : Event
deriving Repr, DecidableEq

def bookTicketEvents (sh : MShow) : List Event :=
  [Event.semWait, Event.mutexLock] ++
    (if 0 < sh.available_tickets then [Event.bookSuccess] else [Event.soldOut]) ++
    [Event.mutexUnlock, Event.semPost]

/-- C6: in every reachable limiter state at most `K = 3` workers hold an
admission permit, permits are conserved, and every `book_ticket`
execution performs exactly one semaphore wait and one semaphore post,
unconditionally, on both the booked and the sold-out path. -/
theorem c6_admission_cap_and_release (n : Nat) (s : LimiterState) (sh : MShow)
    (h : LimiterReachable n s) :
    (holdingCount s ≤ concurrentLimit ∧
      s.permits + holdingCount s = concurrentLimit) ∧
      (bookTicketEvents sh).count Event.semWait = 1 ∧
      (bookTicketEvents sh).count Event.semPost = 1 := by
  have hinv := limiter_invariant n s h
  refine ⟨⟨by omega, hinv⟩, ?_, ?_⟩
  all_goals
    unfold bookTicketEvents
    by_cases hpos : 0 < sh.available_tickets
    · rw [if_pos hpos]
      decide
    · rw [if_neg hpos]
      decide

/-- Concrete instantiation of the C6 limiter theorem. -/
theorem c6_admission_cap_and_release_witness :
    (holdingCount (limiterInit 5) ≤ concurrentLimit ∧
      (limiterInit 5).permits + holdingCount (limiterInit 5) = concurrentLimit) ∧
      (bookTicketEvents (mkShow 0 1)).count Event.semWait = 1 ∧
      (bookTicketEvents (mkShow 0 1)).count Event.semPost = 1 :=
  c6_admission_cap_and_release 5 (limiterInit 5) (mkShow 0 1)
    Relation.ReflTransGen.refl

/-!
Worker spawning and joining (source lines 485-515 and 530-537).  In the
spawn loop a worker whose thread-data allocation fails, or whose
`pthread_create` fails, is skipped with `continue` after an error
message; the join loop nevertheless iterates over every index
`0 .. total_users - 1`.
-/

/-- Indices of workers whose threads were actually created: allocation
and `pthread_create` both succeeded (source lines 485-515). -/
def spawnedWorkers (total : Nat) (dataMallocFails createFails : Nat → Bool) :
    List Nat :=
  (List.range total).filter (fun i => !(dataMallocFails i) && !(createFails i))

/-- Indices the join loop of `main` passes to `pthread_join`
(source lines 530-537): every index, regardless of spawn success. -/
def joinLoopTargets (total : Nat) : List Nat := List.range total

/-- C5 fails on the code: with one worker whose thread-data allocation
fails, no worker is spawned, yet the join loop still waits on slot 0
(an uninitialized thread handle). -/
theorem c5_join_waits_on_failed_spawn :
    spawnedWorkers 1 (fun _ => true) (fun _ => false) = [] ∧
      joinLoopTargets 1 = [0] ∧
      joinLoopTargets 1 ≠ spawnedWorkers 1 (fun _ => true) (fun _ => false) := by
  decide

/-!
Argument parsing.  `main` converts `argv[1..3]` with the C library
function `atoi`, which skips leading whitespace, consumes an optional
sign, converts the longest leading digit run, and returns 0 when no
digits follow the optional sign.
-/

/-- Whitespace accepted by `atoi` (the C `isspace` set). -/
def isSpaceChar (c : Char) : Bool :=
  c == ' ' || c == '\t' || c == '\n' || c == '\x0b' || c == '\x0c' || c == '\r'

/-- Digit-accumulation loop of `atoi`: consume leading digits, stop at
the first non-digit. -/
def atoiDigits : List Char → Int → Int
  | [], acc => acc
  | c :: cs, acc =>
    if c.isDigit then atoiDigits cs (acc * 10 + ((c.toNat : Int) - ('0'.toNat : Int)))
    else acc

/-- Sign handling of `atoi` on the input with leading whitespace
removed. -/
def atoiSigned : List Char → Int
  | [] => 0
  | c :: rest =>
    if c = '-' then - atoiDigits rest 0
    else if c = '+' then atoiDigits rest 0
    else atoiDigits (c :: rest) 0

/-- The C library conversion used at source lines 421-423. -/
def atoi (s : String) : Int :=
  atoiSigned (s.toList.dropWhile isSpaceChar)

/-- A digit-free character list accumulates nothing. -/
theorem atoiDigits_no_digit (cs : List Char) (acc : Int)
    (h : ∀ c ∈ cs, c.isDigit = false) : atoiDigits cs acc = acc := by
  cases cs with
  | nil => rfl
  | cons c rest =>
    unfold atoiDigits
    rw [if_neg (by simp [h c (List.mem_cons_self c rest)])]

/-- `atoi` of a string containing no digit at all is 0. -/
theorem atoi_eq_zero_of_no_digit (s : String)
    (h : ∀ c ∈ s.toList, c.isDigit = false) : atoi s = 0 := by
  unfold atoi
  have hsub : ∀ c ∈ s.toList.dropWhile isSpaceChar, c.isDigit = false :=
    fun c hc => h c ((s.toList.dropWhile_sublist isSpaceChar).mem hc)
  cases hd : s.toList.dropWhile isSpaceChar with
  | nil => rfl
  | cons c rest =>
    rw [hd] at hsub
    have hrest : ∀ x ∈ rest, x.isDigit = false :=
      fun x hx => hsub x (List.mem_cons_of_mem c hx)
    have hred : atoiSigned (c :: rest) =
        if c = '-' then - atoiDigits rest 0
        else if c = '+' then atoiDigits rest 0
        else atoiDigits (c :: rest) 0 := rfl
    rw [hred]
    by_cases hneg : c = '-'
    · rw [if_pos hneg, atoiDigits_no_digit rest 0 hrest]
      rfl
    · rw [if_neg hneg]
      by_cases hplus : c = '+'
      · rw [if_pos hplus, atoiDigits_no_digit rest 0 hrest]
      · rw [if_neg hplus, atoiDigits_no_digit (c :: rest) 0 hsub]

/-!
Fault-injected model of `main`'s initialization and spawn pipeline
(source lines 398-558): argument-count check, `atoi` conversion,
positivity validation, `sem_init`, `initialize_shows` (allocation then
per-show mutex initialization with rollback), thread-array allocation,
the spawn loop, the join loop, final report, `return 0`.
-/

/-- Outcome of `initialize_shows` under injected failures: either a
fatal exit recording which mutexes were destroyed and whether the show
storage was freed before exiting, or success with the built show array. -/
inductive InitResult where
  | fatal (destroyedMutexes : List Nat) (storageFreed : Bool) : InitResult
  | ok (shows : List MShow) : InitResult
deriving Repr, DecidableEq

def InitResult.isOk : InitResult → Bool
  | .ok _ => true
  | .fatal _ _ => false

/-- The `for` loop of `initialize_shows` from index `i` with `k`
iterations left: a mutex-initialization failure at index `i` destroys
the mutexes of shows `0 .. i-1`, frees the storage and exits fatally
(source lines 138-147). -/
def initShowsLoop (ticketsPerShow : Nat) (mutexInitFails : Nat → Bool)
    (i : Nat) : Nat → InitResult
  | 0 => .ok []
  | Nat.succ k =>
    if mutexInitFails i then .fatal (List.range i) true
    else
      match initShowsLoop ticketsPerShow mutexInitFails (i + 1) k with
      | .ok rest => .ok (mkShow i ticketsPerShow :: rest)
      | .fatal d f => .fatal d f

/-- `initialize_shows` (source lines 115-153): a failed storage
allocation exits fatally with nothing to roll back; otherwise the
initialization loop runs. -/
def initShows (numShows ticketsPerShow : Nat) (mallocFails : Bool)
    (mutexInitFails : Nat → Bool) : InitResult :=
  if mallocFails then .fatal [] false
  else initShowsLoop ticketsPerShow mutexInitFails 0 numShows

/-- Injected resource failures for a run of `main`. -/
structure Faults where
  semInitFails : Bool
  showsMallocFails : Bool
  mutexInitFails : Nat → Bool
  threadsMallocFails : Bool
  threadDataMallocFails : Nat → Bool
  threadCreateFails : Nat → Bool

/-- The fault-free environment. -/
def noFaults : Faults :=
  { semInitFails := false
    showsMallocFails := false
    mutexInitFails := fun _ => false
    threadsMallocFails := false
    threadDataMallocFails := fun _ => false
    threadCreateFails := fun _ => false }

/-- Observable result of a run of `main`: the process exit code and how
many worker threads were created. -/
structure MainResult where
  exitCode : Nat
  workersSpawned : Nat
deriving Repr, DecidableEq

/-- Control flow of `main` (source lines 398-558): argument-count check,
`atoi` conversion of `argv[1..3]`, positivity validation, `sem_init`,
`initialize_shows`, thread-array allocation, spawn loop, join loop,
report, `return 0`. -/
def mainRun (args : List String) (f : Faults) : MainResult :=
  if args.length ≠ 4 then { exitCode := 1, workersSpawned := 0 }
  else if atoi (args.getD 1 "") ≤ 0 ∨ atoi (args.getD 2 "") ≤ 0 ∨
      atoi (args.getD 3 "") ≤ 0 then
    { exitCode := 1, workersSpawned := 0 }
  else if f.semInitFails then { exitCode := 1, workersSpawned := 0 }
  else
    match initShows (atoi (args.getD 3 "")).toNat (atoi (args.getD 2 "")).toNat
        f.showsMallocFails f.mutexInitFails with
    | .fatal _ _ => { exitCode := 1, workersSpawned := 0 }
    | .ok _ =>
      if f.threadsMallocFails then { exitCode := 1, workersSpawned := 0 }
      else
        { exitCode := 0
          workersSpawned :=
            (spawnedWorkers (atoi (args.getD 1 "")).toNat
              f.threadDataMallocFails f.threadCreateFails).length }

/-- Normal completion of `main`: four arguments, three positive parsed
values, and no injected resource failure. -/
def NormalRun (args : List String) (f : Faults) : Prop :=
  args.length = 4 ∧ 0 < atoi (args.getD 1 "") ∧ 0 < atoi (args.getD 2 "") ∧
    0 < atoi (args.getD 3 "") ∧ f.semInitFails = false ∧
    (initShows (atoi (args.getD 3 "")).toNat (atoi (args.getD 2 "")).toNat
      f.showsMallocFails f.mutexInitFails).isOk = true ∧
    f.threadsMallocFails = false

/-- If the first mutex-initialization failure happens for show `i + j`
(counting from start index `i`), the loop destroys the mutexes of the
shows before it and frees the storage. -/
theorem initShowsLoop_fatal (t : Nat) (mf : Nat → Bool) (k i j : Nat)
    (hj : j < k) (hfj : mf (i + j) = true)
    (hmin : ∀ j2, j2 < j → mf (i + j2) = false) :
    initShowsLoop t mf i k = .fatal (List.range (i + j)) true := by
  induction k generalizing i j with
  | zero => exact absurd hj (Nat.not_lt_zero j)
  | succ k ih =>
    by_cases h0 : mf i = true
    · have hj0 : j = 0 := by
        by_contra hne
        have hz := hmin 0 (Nat.pos_of_ne_zero hne)
        rw [Nat.add_zero] at hz
        rw [hz] at h0
        exact Bool.noConfusion h0
      subst hj0
      unfold initShowsLoop
      rw [if_pos h0, Nat.add_zero]
    · have hjpos : 0 < j := by
        rcases Nat.eq_zero_or_pos j with hz | hp
        · rw [hz, Nat.add_zero] at hfj
          exact absurd hfj h0
        · exact hp
      have hrec := ih (i + 1) (j - 1) (by omega)
        (by rw [show i + 1 + (j - 1) = i + j by omega]; exact hfj)
        (fun j2 hj2 => by
          rw [show i + 1 + j2 = i + (j2 + 1) by omega]
          exact hmin (j2 + 1) (by omega))
      rw [show i + 1 + (j - 1) = i + j by omega] at hrec
      unfold initShowsLoop
      rw [if_neg h0, hrec]

/-- Without mutex failures the initialization loop succeeds. -/
theorem initShowsLoop_ok (t : Nat) (mf : Nat → Bool)
    (hmf : ∀ j, mf j = false) (k i : Nat) :
    ∃ l, initShowsLoop t mf i k = .ok l := by
  induction k generalizing i with
  | zero => exact ⟨[], rfl⟩
  | succ k ih =>
    obtain ⟨l, hl⟩ := ih (i + 1)
    refine ⟨mkShow i t :: l, ?_⟩
    unfold initShowsLoop
    rw [if_neg (by simp [hmf i]), hl]

/-- C8: a failed storage allocation in `initialize_shows` is fatal with
nothing to roll back; a mutex-initialization failure at the first
failing show `i` is fatal after destroying the mutexes of shows
`0 .. i-1` and freeing the storage; and whenever `initialize_shows`
exits fatally, `main` spawns no worker. -/
theorem c8_fatal_setup_rollback (n t i : Nat) (mf : Nat → Bool)
    (args : List String) (f : Faults)
    (hin : i < n) (hfi : mf i = true) (hmin : ∀ j, j < i → mf j = false) :
    initShows n t true mf = .fatal [] false ∧
      initShows n t false mf = .fatal (List.range i) true ∧
      ((initShows (atoi (args.getD 3 "")).toNat (atoi (args.getD 2 "")).toNat
          f.showsMallocFails f.mutexInitFails).isOk = false →
        (mainRun args f).workersSpawned = 0) := by
  refine ⟨by unfold initShows; rw [if_pos rfl], ?_, ?_⟩
  · unfold initShows
    rw [if_neg (by simp)]
    have := initShowsLoop_fatal t mf n 0 i hin
      (by rw [Nat.zero_add]; exact hfi)
      (fun j2 hj2 => by rw [Nat.zero_add]; exact hmin j2 hj2)
    rwa [Nat.zero_add] at this
  · intro hfatal
    unfold mainRun
    by_cases h1 : args.length ≠ 4
    · rw [if_pos h1]
    · rw [if_neg h1]
      by_cases h2 : atoi (args.getD 1 "") ≤ 0 ∨ atoi (args.getD 2 "") ≤ 0 ∨
          atoi (args.getD 3 "") ≤ 0
      · rw [if_pos h2]
      · rw [if_neg h2]
        by_cases h3 : f.semInitFails = true
        · rw [if_pos h3]
        · rw [if_neg h3]
          cases hini : initShows (atoi (args.getD 3 "")).toNat
              (atoi (args.getD 2 "")).toNat f.showsMallocFails
              f.mutexInitFails with
          | fatal d fr => rfl
          | ok l =>
            rw [hini] at hfatal
            exact absurd hfatal (by simp [InitResult.isOk])

/-- Concrete instantiation of the C8 rollback theorem. -/
theorem c8_fatal_setup_rollback_witness :
    initShows 3 2 false (fun j => j == 1) = .fatal (List.range 1) true :=
  (c8_fatal_setup_rollback 3 2 1 (fun j => j == 1) [] noFaults
    (by norm_num) (by decide) (fun j hj => by interval_cases j; decide)).2.1

/-- The exit code of `mainRun` is always 0 or 1. -/
theorem mainRun_exit_dichotomy (args : List String) (f : Faults) :
    (mainRun args f).exitCode = 0 ∨ (mainRun args f).exitCode = 1 := by
  unfold mainRun
  by_cases h1 : args.length ≠ 4
  · rw [if_pos h1]; right; rfl
  · rw [if_neg h1]
    by_cases h2 : atoi (args.getD 1 "") ≤ 0 ∨ atoi (args.getD 2 "") ≤ 0 ∨
        atoi (args.getD 3 "") ≤ 0
    · rw [if_pos h2]; right; rfl
    · rw [if_neg h2]
      by_cases h3 : f.semInitFails = true
      · rw [if_pos h3]; right; rfl
      · rw [if_neg h3]
        cases hini : initShows (atoi (args.getD 3 "")).toNat
            (atoi (args.getD 2 "")).toNat f.showsMallocFails
            f.mutexInitFails with
        | fatal d fr => right; rfl
        | ok l =>
          cases f.threadsMallocFails with
          | true => right; rfl
          | false => left; rfl

/-- Exit code 0 characterizes a normal run. -/
theorem mainRun_exit_zero_iff (args : List String) (f : Faults) :
    (mainRun args f).exitCode = 0 ↔ NormalRun args f := by
  unfold mainRun NormalRun
  by_cases h1 : args.length = 4
  case neg =>
    rw [if_pos h1]
    exact iff_of_false (by simp) (fun hn => h1 hn.1)
  case pos =>
    rw [if_neg (by simp [h1])]
    by_cases h2 : atoi (args.getD 1 "") ≤ 0 ∨ atoi (args.getD 2 "") ≤ 0 ∨
        atoi (args.getD 3 "") ≤ 0
    · rw [if_pos h2]
      refine iff_of_false (by simp) (fun hn => ?_)
      obtain ⟨-, ha, hb, hc, -⟩ := hn
      rcases h2 with h | h | h <;> omega
    · rw [if_neg h2]
      push_neg at h2
      obtain ⟨ha, hb, hc⟩ := h2
      by_cases h3 : f.semInitFails = true
      · rw [if_pos h3]
        refine iff_of_false (by simp) (fun hn => ?_)
        rw [hn.2.2.2.2.1] at h3
        exact Bool.noConfusion h3
      · rw [if_neg h3]
        cases hini : initShows (atoi (args.getD 3 "")).toNat
            (atoi (args.getD 2 "")).toNat f.showsMallocFails
            f.mutexInitFails with
        | fatal d fr =>
          exact iff_of_false (by simp)
            (fun hn => absurd hn.2.2.2.2.2.1 (by simp [InitResult.isOk]))
        | ok l =>
          cases h4 : f.threadsMallocFails with
          | true =>
            exact iff_of_false (by simp)
              (fun hn => Bool.noConfusion hn.2.2.2.2.2.2)
          | false =>
            exact iff_of_true rfl
              ⟨h1, ha, hb, hc, Bool.eq_false_iff.mpr h3, rfl, rfl⟩

/-- C9: the program exits with code 1 exactly when the argument count is
wrong, a parsed value is non-positive, or a fatal resource failure
(semaphore init, show storage allocation, mutex init, thread-array
allocation) occurs, and with code 0 exactly on normal completion. -/
theorem c9_exit_code_one_or_zero (args : List String) (f : Faults) :
    ((mainRun args f).exitCode = 0 ↔ NormalRun args f) ∧
      ((mainRun args f).exitCode = 1 ↔ ¬ NormalRun args f) := by
  have h01 := mainRun_exit_zero_iff args f
  refine ⟨h01, ?_, ?_⟩
  · intro h1 hn
    have h0 := h01.mpr hn
    omega
  · intro hn
    rcases mainRun_exit_dichotomy args f with h | h
    · exact absurd (h01.mp h) hn
    · exact h

/-- C10: argument validation goes by the `atoi` value, not by integer
syntax.  Any argument vector whose `atoi` conversion yields a
non-positive value in some position is rejected with exit code 1; a
string containing no digit converts to 0 (hence is rejected); and a
positive number with trailing non-digit characters such as "5x"
converts to that number and is accepted. -/
theorem c10_atoi_value_validation :
    (∀ (args : List String) (f : Faults), args.length = 4 →
      (atoi (args.getD 1 "") ≤ 0 ∨ atoi (args.getD 2 "") ≤ 0 ∨
        atoi (args.getD 3 "") ≤ 0) →
      (mainRun args f).exitCode = 1)
    ∧ (∀ s : String, (∀ c ∈ s.toList, c.isDigit = false) → atoi s = 0)
    ∧ atoi ("abc") = 0
    ∧ atoi ("5x") = 5
    ∧ (mainRun ["./movie_booking", "5x", "2", "3"] noFaults).exitCode = 0 := by
  refine ⟨?_, atoi_eq_zero_of_no_digit, by decide, by decide, by decide⟩
  intro args f h1 h2
  unfold mainRun
  rw [if_neg (by simp [h1]), if_pos h2]

/-- Concrete instantiation of the C10 validation theorem: a purely
non-numeric first argument is rejected. -/
theorem c10_atoi_value_validation_witness :
    (["./movie_booking", "abc", "2", "3"] : List String).length = 4 ∧
      (mainRun ["./movie_booking", "abc", "2", "3"] noFaults).exitCode = 1 :=
  ⟨by decide,
    c10_atoi_value_validation.1 ["./movie_booking", "abc", "2", "3"] noFaults
      (by decide) (by decide)⟩

end MovieTicket
